import Mathlib

/-!
A verification development for the `fsm` package of the swfsm repository:
the decider composition and outcome model, the typed-adapter validation,
the managed-continuation rules and the decision-task dispatch layer.

Embedding conventions: Go machine integers (`int`, `int64`) are `Int`;
Go slices are `List`; Go `nil`-able pointers are `Option`; a Go panic
during evaluation is `Option.none` at the outermost level; the user state
data (`interface\x7b\x7d` in Go) is a type parameter `D`.
-/

/-- Attributes of a timer-fired history event (external `swf` value object:
only the field the fsm package reads). -/
structure TimerFiredEventAttributes where
  timerID : String
deriving DecidableEq

/-- Attributes of a workflow-execution-signaled history event (external
`swf` value object: only the field the fsm package reads). -/
structure WorkflowExecutionSignaledEventAttributes where
  signalName : String
deriving DecidableEq

/-- A history event as the fsm package consumes it: event kind, the
monotonically increasing identifier, and the kind-specific attributes the
deciders dereference.  Unset attribute pointers are `none`. -/
structure HistoryEvent where
  eventType : String
  eventID : Int
  timerFiredEventAttributes : Option TimerFiredEventAttributes
  workflowExecutionSignaledEventAttributes : Option WorkflowExecutionSignaledEventAttributes
deriving DecidableEq

/-- `swf.StartTimerDecisionAttributes`: the fields set by
`ManagedContinuations`. -/
structure StartTimerDecisionAttributes where
  startToFireTimeout : String
  timerID : String
deriving DecidableEq

/-- `swf.SignalExternalWorkflowExecutionDecisionAttributes`: the fields set
by `signalContinuationWhenHistoryLarge`. -/
structure SignalExternalWorkflowExecutionDecisionAttributes where
  signalName : String
  workflowID : String
  runID : String
deriving DecidableEq

/-- An `swf.Decision` as the fsm package builds it: the decision type plus
the attribute blocks this package ever fills in.  The continue-as-new
attribute block is collapsed to the state name it carries (spec section 3:
a continue-as-new decision is pre-filled with the current state name). -/
structure Decision where
  decisionType : String
  startTimerDecisionAttributes : Option StartTimerDecisionAttributes
  signalExternalWorkflowExecutionDecisionAttributes :
    Option SignalExternalWorkflowExecutionDecisionAttributes
  continueAsNewStateName : Option String
deriving DecidableEq

def EventTypeTimerFired : String := "TimerFired"

def EventTypeWorkflowExecutionSignaled : String := "WorkflowExecutionSignaled"

def EventTypeExternalWorkflowExecutionSignaled : String :=
  "ExternalWorkflowExecutionSignaled"

def EventTypeSignalExternalWorkflowExecutionFailed : String :=
  "SignalExternalWorkflowExecutionFailed"

def DecisionTypeStartTimer : String := "StartTimer"

def DecisionTypeSignalExternalWorkflowExecution : String :=
  "SignalExternalWorkflowExecution"

def DecisionTypeContinueAsNewWorkflowExecution : String :=
  "ContinueAsNewWorkflowExecution"

/-- Modelled from the spec: the reserved continue timer id (`ContinueTimer`
is declared outside `deciders.go`; the source comments call it the
`FSM.ContinueWorkflow` timer). -/
def ContinueTimer : String := "FSM.ContinueWorkflow"

/-- Modelled from the spec: the reserved continue signal name
(`ContinueSignal` is declared outside `deciders.go`; the source comments
call it the `FSM.ContinueWorkflow` signal). -/
def ContinueSignal : String := "FSM.ContinueWorkflow"

/-- One entry of the outstanding-activities registry (spec section 3: a
registry mapping outstanding unit-of-work identifiers to descriptive
info). -/
structure ActivityInfo where
  activityID : String
  name : String
deriving DecidableEq

/-- Modelled from the spec: the execution context (`FSMContext` is declared
outside `deciders.go`).  Per spec section 3 it holds the workflow identity
and run id, the current state name, and the registry of outstanding
units of work; the registry is embedded as the list of `ActivityInfo`
values that `ctx.ActivitiesInfo()` returns. -/
structure FSMContext where
  WorkflowID : String
  RunID : String
  State : String
  ActivitiesInfo : List ActivityInfo
deriving DecidableEq

/-- Modelled from the spec: `ctx.EmptyDecisions()` initializes an empty
decision sequence (spec section 4.1 step 1). -/
def FSMContext.EmptyDecisions (_ctx : FSMContext) : List Decision := []

/-- The outcome vocabulary of a decider (spec section 3): `Pass`,
`ContinueOutcome`, `TransitionOutcome`, `CompleteOutcome`.  The concrete
outcome types are declared outside `deciders.go`, so the variants are
modelled from the spec as a closed tagged union, exactly as spec section 9
prescribes.  `NilOutcome` is additionally needed because in the source the
`Outcome` interface type also admits the Go `nil` interface value, which
`marshalledFunc.decider` deliberately produces (deciders.go lines
139-141). -/
inductive Outcome (D : Type) where
  | Pass : Outcome D
  | ContinueOutcome (data : D) (decisions : List Decision) : Outcome D
  | TransitionOutcome (data : D) (state : String) (decisions : List Decision) : Outcome D
  | CompleteOutcome (data : D) (decisions : List Decision) : Outcome D
  | NilOutcome : Outcome D
deriving DecidableEq

/-- Modelled from the spec: the `State()` accessor of the `Outcome`
interface.  A Transition outcome reports its target state; the spec
(section 3) gives Continue and Complete outcomes no target state, modelled
as the empty string.  `Pass` and the nil value are never asked for their
state by the source. -/
def Outcome.stateOf {D : Type} : Outcome D → String
  | Outcome.TransitionOutcome _ state _ => state
  | _ => ""

/-- The `Decisions()` accessor of the `Outcome` interface: the decision
sequence an outcome carries (spec section 3); `Pass` carries nothing. -/
def Outcome.decisionsOf {D : Type} : Outcome D → List Decision
  | Outcome.ContinueOutcome _ decisions => decisions
  | Outcome.TransitionOutcome _ _ decisions => decisions
  | Outcome.CompleteOutcome _ decisions => decisions
  | _ => []

/-- The `Data()` accessor of the `Outcome` interface, with a default for
the variants that carry no data. -/
def Outcome.dataOf {D : Type} (o : Outcome D) (dflt : D) : D :=
  match o with
  | Outcome.ContinueOutcome data _ => data
  | Outcome.TransitionOutcome data _ _ => data
  | Outcome.CompleteOutcome data _ => data
  | _ => dflt

/-- An outcome that ends a composition pass: in `ComposedDecider.Decide`
(deciders.go lines 43-53) every outcome other than `Pass`, the nil value
and `ContinueOutcome` hits the `default:` branch and is returned
immediately. -/
def Outcome.terminal {D : Type} : Outcome D → Bool
  | Outcome.TransitionOutcome _ _ _ => true
  | Outcome.CompleteOutcome _ _ => true
  | _ => false

/-- Is an evaluation result a Complete outcome? -/
def outcomeIsComplete {D : Type} : Option (Outcome D) → Bool
  | some (Outcome.CompleteOutcome _ _) => true
  | _ => false

/-- The decision sequence of an evaluation result (`[]` for a panic). -/
def outcomeDecisions {D : Type} : Option (Outcome D) → List Decision
  | some o => o.decisionsOf
  | none => []

/-- A `Decider` (deciders.go: `func(*FSMContext, swf.HistoryEvent,
interface\x7b\x7d) Outcome`).  The `Option` layer models Go panics during
the call: `none` is a panic, `some o` is a normal return of `o` (which may
itself be the nil interface value `Outcome.NilOutcome`). -/
def Decider (D : Type) : Type := FSMContext → HistoryEvent → D → Option (Outcome D)

/-- `DecisionFunc` (deciders.go line 76). -/
def DecisionFunc (D : Type) : Type := FSMContext → HistoryEvent → D → Decision

/-- `MultiDecisionFunc` (deciders.go line 79). -/
def MultiDecisionFunc (D : Type) : Type := FSMContext → HistoryEvent → D → List Decision

/-- `StateFunc` (deciders.go line 82); it returns nothing. -/
def StateFunc (D : Type) : Type := FSMContext → HistoryEvent → D → Unit

/-- `PredicateFunc` (deciders.go line 85). -/
def PredicateFunc (D : Type) : Type := D → Bool

/-- The loop body of `ComposedDecider.Decide` (deciders.go lines 32-59),
with the remaining sub-deciders, the threaded `data` and the accumulated
`decisions` explicit.  Branches, in the source's testing order:
a panicking sub-decider propagates (`none`); `outcome == Pass` skips with
no accumulation; a returned nil outcome is neither `Pass` nor a
`ContinueOutcome`, and `outcome.Decisions()` on it panics (`none`);
a `ContinueOutcome` contributes its decisions and data and the loop
continues; the `default:` branch contributes the outcome's decisions and
data and returns immediately a `TransitionOutcome` built from
`outcome.State()` and the full accumulated decision sequence — note the
source builds a `TransitionOutcome` there even when the sub-outcome was a
`CompleteOutcome`.  The empty-decider fallthrough (lines 55-58) returns a
`ContinueOutcome` with the accumulated decisions and final data. -/
def ComposedDecider.DecideAux {D : Type} (ctx : FSMContext) (hEvent : HistoryEvent) :
    List (Decider D) → D → List Decision → Option (Outcome D)
  | [], data, decisions => some (Outcome.ContinueOutcome data decisions)
  | d :: ds, data, decisions =>
    match d ctx hEvent data with
    | none => none
    | some Outcome.Pass => ComposedDecider.DecideAux ctx hEvent ds data decisions
    | some Outcome.NilOutcome => none
    | some (Outcome.ContinueOutcome data2 decs) =>
        ComposedDecider.DecideAux ctx hEvent ds data2 (decisions ++ decs)
    | some (Outcome.TransitionOutcome data2 st decs) =>
        some (Outcome.TransitionOutcome data2
          ((Outcome.TransitionOutcome data2 st decs).stateOf) (decisions ++ decs))
    | some (Outcome.CompleteOutcome data2 decs) =>
        some (Outcome.TransitionOutcome data2
          ((Outcome.CompleteOutcome data2 decs : Outcome D).stateOf) (decisions ++ decs))

/-- `NewComposedDecider` (deciders.go lines 24-29): the returned decider is
`ComposedDecider.Decide`, which starts from `ctx.EmptyDecisions()` and the
input data. -/
def NewComposedDecider {D : Type} (deciders : List (Decider D)) : Decider D :=
  fun ctx hEvent data =>
    ComposedDecider.DecideAux ctx hEvent deciders data (ctx.EmptyDecisions)

/-- Modelled from the spec: `ctx.Stay` (`FSMContext` methods are declared
outside `deciders.go`).  Staying keeps the current state (spec sections
4.3 and 8) while ending the pass for this event: the source distinguishes
`ctx.Stay` from `ctx.ContinueDecision` — the latter is the keep-evaluating
Continue constructor used by `AddDecision`/`UpdateState` — and
`ComposedDecider.Decide` ends the pass on every non-Pass, non-Continue
outcome, which is what lets Managed Continuations emit exactly one
decision (spec section 8).  Stay is therefore the Transition outcome
targeting the context's current state. -/
def FSMContext.Stay {D : Type} (ctx : FSMContext) (data : D) (decisions : List Decision) :
    Outcome D :=
  Outcome.TransitionOutcome data ctx.State decisions

/-- Modelled from the spec: `ctx.ContinueDecision`, the Continue-outcome
constructor (spec section 3: Continue carries decisions and data and lets
later rules of the same composition run). -/
def FSMContext.ContinueDecision {D : Type} (_ctx : FSMContext) (data : D)
    (decisions : List Decision) : Outcome D :=
  Outcome.ContinueOutcome data decisions

/-- Modelled from the spec: `ctx.Goto`, the Transition-outcome constructor
(spec section 3: Transition carries decisions, data and the target state
name). -/
def FSMContext.Goto {D : Type} (_ctx : FSMContext) (state : String) (data : D)
    (decisions : List Decision) : Outcome D :=
  Outcome.TransitionOutcome data state decisions

/-- Modelled from the spec: `ctx.ContinueWorkflowDecision(state)` builds a
continue-as-new decision pre-filled with the given state name (spec
section 3; called in deciders.go line 360 with `ctx.State`). -/
def FSMContext.ContinueWorkflowDecision (_ctx : FSMContext) (state : String) : Decision :=
  Decision.mk DecisionTypeContinueAsNewWorkflowExecution none none (some state)

/-- `OnSignalSent` (deciders.go lines 246-256): on an
external-workflow-execution-signaled event it delegates to the nested
composed decider; otherwise it passes.  The `signalName` parameter is
bound but never read — the source carries a TODO in place of the check. -/
def OnSignalSent {D : Type} (signalName : String) (deciders : List (Decider D)) : Decider D :=
  fun ctx hEvent data =>
    if hEvent.eventType = EventTypeExternalWorkflowExecutionSignaled then
      NewComposedDecider deciders ctx hEvent data
    else
      some Outcome.Pass

/-- `OnSignalFailed` (deciders.go lines 258-268): on a
signal-external-workflow-execution-failed event it delegates to the nested
composed decider; otherwise it passes.  The `signalName` parameter is
bound but never read — the source carries a TODO in place of the check. -/
def OnSignalFailed {D : Type} (signalName : String) (deciders : List (Decider D)) : Decider D :=
  fun ctx hEvent data =>
    if hEvent.eventType = EventTypeSignalExternalWorkflowExecutionFailed then
      NewComposedDecider deciders ctx hEvent data
    else
      some Outcome.Pass

/-- The start-timer decision built by the continuation rules
(deciders.go lines 363-369): decision type `StartTimer`, a
start-to-fire timeout of `strconv.Itoa(timerRetrySeconds)` and the
reserved continue timer id. -/
def continuationRetryTimerDecision (timerRetrySeconds : Int) : Decision :=
  Decision.mk DecisionTypeStartTimer
    (some (StartTimerDecisionAttributes.mk (toString timerRetrySeconds) ContinueTimer))
    none none

/-- `handleContinuationTimer` (deciders.go lines 357-375): on a
timer-fired event for the reserved continue timer, emit a continue-as-new
decision for the current state if no activities are outstanding, otherwise
re-arm the continue timer with the retry delay; in both cases Stay.
Any other event passes.  The Go guard short-circuits: the timer attribute
block is dereferenced only when the event type matches, and on a
timer-fired event with a nil attribute block that dereference panics
(`none`). -/
def handleContinuationTimer {D : Type} (timerRetrySeconds : Int) : Decider D :=
  fun ctx hEvent data =>
    if hEvent.eventType = EventTypeTimerFired then
      match hEvent.timerFiredEventAttributes with
      | none => none
      | some attrs =>
        if attrs.timerID = ContinueTimer then
          if ctx.ActivitiesInfo.length = 0 then
            some (ctx.Stay data
              (ctx.EmptyDecisions ++ [ctx.ContinueWorkflowDecision ctx.State]))
          else
            some (ctx.Stay data
              (ctx.EmptyDecisions ++ [continuationRetryTimerDecision timerRetrySeconds]))
        else
          some Outcome.Pass
    else
      some Outcome.Pass

/-- `handleContinuationSignal` (deciders.go lines 377-397): symmetric to
`handleContinuationTimer`, triggered by a workflow-execution-signaled
event carrying the reserved continue signal; the signal attribute block is
dereferenced only when the event type matches, and a nil block there
panics (`none`). -/
def handleContinuationSignal {D : Type} (timerRetrySeconds : Int) : Decider D :=
  fun ctx hEvent data =>
    if hEvent.eventType = EventTypeWorkflowExecutionSignaled then
      match hEvent.workflowExecutionSignaledEventAttributes with
      | none => none
      | some attrs =>
        if attrs.signalName = ContinueSignal then
          if ctx.ActivitiesInfo.length = 0 then
            some (ctx.Stay data
              (ctx.EmptyDecisions ++ [ctx.ContinueWorkflowDecision ctx.State]))
          else
            some (ctx.Stay data
              (ctx.EmptyDecisions ++ [continuationRetryTimerDecision timerRetrySeconds]))
        else
          some Outcome.Pass
    else
      some Outcome.Pass

/-- The self-signal decision built by `signalContinuationWhenHistoryLarge`
(deciders.go lines 401-408): signal this very execution (its own workflow
id and run id) with the reserved continue signal. -/
def continueSelfSignalDecision (ctx : FSMContext) : Decision :=
  Decision.mk DecisionTypeSignalExternalWorkflowExecution
    none
    (some (SignalExternalWorkflowExecutionDecisionAttributes.mk
      ContinueSignal ctx.WorkflowID ctx.RunID))
    none

/-- `signalContinuationWhenHistoryLarge` (deciders.go lines 399-413): if
the event identifier exceeds the configured history size, emit the
continue self-signal and Stay; otherwise pass. -/
def signalContinuationWhenHistoryLarge {D : Type} (historySize : Int) : Decider D :=
  fun ctx hEvent data =>
    if historySize < hEvent.eventID then
      some (ctx.Stay data (ctx.EmptyDecisions ++ [continueSelfSignalDecision ctx]))
    else
      some Outcome.Pass

/-- `ManagedContinuations` (deciders.go lines 356-421): the composition of
the continuation-timer, continuation-signal and history-size rules, in
that order. -/
def ManagedContinuations {D : Type} (historySize timerRetrySeconds : Int) : Decider D :=
  NewComposedDecider
    [handleContinuationTimer timerRetrySeconds,
     handleContinuationSignal timerRetrySeconds,
     signalContinuationWhenHistoryLarge historySize]

/-- The reflected type of a Go function value, as `typeCheck` inspects it:
its `Kind()` (as a string, `"func"` for functions), and the `String()`
forms of its argument and return types.  Go reflection is external to the
repository; this record carries exactly what `typeCheck` reads. -/
structure GoFuncType where
  kind : String
  inTypes : List String
  outTypes : List String
deriving DecidableEq

/-- `typeCheck` (deciders.go lines 163-199) as the predicate deciding
whether construction succeeds (`true`) or panics (`false`): the value must
be of func kind, the input arity must equal `len(in)` with each argument
type string equal to the expected one in order, and likewise for the
return types. -/
def typeCheck (t : GoFuncType) (ins outs : List String) : Bool :=
  (t.kind == "func")
    && ((ins.length == t.inTypes.length)
        && ((ins.zip t.inTypes).all fun p => p.1 == p.2))
    && ((outs.length == t.outTypes.length)
        && ((outs.zip t.outTypes).all fun p => p.1 == p.2))

/-- `TypedFuncs` (deciders.go lines 95-101): it holds the user's typed
value; the only thing the package reads from it is
`reflect.TypeOf(t.typed).String()`, embedded here directly as the type
string `typeArg`. -/
structure TypedFuncs where
  typeArg : String
deriving DecidableEq

/-- `marshalledFunc.decider` (deciders.go lines 137-143), with the
reflective `Call` embedded as direct application of the wrapped typed
callback `v`: when the callback's result is the nil interface value the
adapter returns nil (`if ret.IsNil() \x7b return nil \x7d`), otherwise the
result itself. -/
def marshalledFuncDecider {D : Type} (v : FSMContext → HistoryEvent → D → Outcome D) :
    Decider D :=
  fun ctx hEvent data =>
    match v ctx hEvent data with
    | Outcome.NilOutcome => some Outcome.NilOutcome
    | ret => some ret

/-- `TypedFuncs.Decider` (deciders.go lines 104-107): type-check the
callback against `(*fsm.FSMContext, swf.HistoryEvent, typeArg) →
fsm.Outcome` and wrap it; `none` is the construction-time panic. -/
def TypedFuncs.buildDecider {D : Type} (t : TypedFuncs) (sig : GoFuncType)
    (decider : FSMContext → HistoryEvent → D → Outcome D) : Option (Decider D) :=
  if typeCheck sig ["*fsm.FSMContext", "swf.HistoryEvent", t.typeArg] ["fsm.Outcome"] then
    some (marshalledFuncDecider decider)
  else
    none

/-- `TypedFuncs.DecisionFunc` (deciders.go lines 110-113): expected shape
`(*fsm.FSMContext, swf.HistoryEvent, typeArg) → swf.Decision`. -/
def TypedFuncs.buildDecisionFunc {D : Type} (t : TypedFuncs) (sig : GoFuncType)
    (decisionFunc : FSMContext → HistoryEvent → D → Decision) : Option (DecisionFunc D) :=
  if typeCheck sig ["*fsm.FSMContext", "swf.HistoryEvent", t.typeArg] ["swf.Decision"] then
    some decisionFunc
  else
    none

/-- `TypedFuncs.MultiDecisionFunc` (deciders.go lines 116-119): expected
shape `(*fsm.FSMContext, swf.HistoryEvent, typeArg) → []swf.Decision`. -/
def TypedFuncs.buildMultiDecisionFunc {D : Type} (t : TypedFuncs) (sig : GoFuncType)
    (decisionFunc : FSMContext → HistoryEvent → D → List Decision) :
    Option (MultiDecisionFunc D) :=
  if typeCheck sig ["*fsm.FSMContext", "swf.HistoryEvent", t.typeArg] ["[]swf.Decision"] then
    some decisionFunc
  else
    none

/-- `TypedFuncs.StateFunc` (deciders.go lines 122-125): expected shape
`(*fsm.FSMContext, swf.HistoryEvent, typeArg)` with no return values. -/
def TypedFuncs.buildStateFunc {D : Type} (t : TypedFuncs) (sig : GoFuncType)
    (stateFunc : FSMContext → HistoryEvent → D → Unit) : Option (StateFunc D) :=
  if typeCheck sig ["*fsm.FSMContext", "swf.HistoryEvent", t.typeArg] [] then
    some stateFunc
  else
    none

/-- `TypedFuncs.PredicateFunc` (deciders.go lines 128-131): expected shape
`(typeArg) → bool`. -/
def TypedFuncs.buildPredicateFunc {D : Type} (t : TypedFuncs) (sig : GoFuncType)
    (stateFunc : D → Bool) : Option (PredicateFunc D) :=
  if typeCheck sig [t.typeArg] ["bool"] then
    some stateFunc
  else
    none

/-- Observable steps of one `DispatchTask` call, for stating dispatch
ordering properties. -/
inductive DispatchEvent (Task : Type) where
  | handlerStarted (task : Task) : DispatchEvent Task
  | handlerCompleted (task : Task) : DispatchEvent Task
  | returned : DispatchEvent Task
deriving DecidableEq

/-- Modelled from the spec: `CallingGoroutineDispatcher.DispatchTask`
(declared outside the sources; only its test is under src).  Spec section
4.4: on the inline policy, `handler(task)` is invoked synchronously on
the caller's thread of execution before `DispatchTask` returns.  The
handler is embedded as a state transformer; the call returns the state
after the single synchronous handler application, together with its
execution trace: the handler starts, the handler completes, and only then
does the call return. -/
def CallingGoroutineDispatcher.DispatchTask {Task St : Type} (task : Task)
    (handler : Task → St → St) (s : St) : St × List (DispatchEvent Task) :=
  (handler task s,
   [DispatchEvent.handlerStarted task, DispatchEvent.handlerCompleted task,
    DispatchEvent.returned])

/-- Specification helper (not a source translation): the accumulated
contribution of a run of rules in which every rule passes or continues —
`some (finalData, decisions)` collects, in order, the decisions of the
Continue outcomes and threads the data exactly as the
`ComposedDecider.Decide` loop does; `none` if some rule panics, returns
nil, or ends the pass. -/
def leadingContribution {D : Type} (ctx : FSMContext) (hEvent : HistoryEvent) :
    List (Decider D) → D → Option (D × List Decision)
  | [], data => some (data, [])
  | d :: ds, data =>
    match d ctx hEvent data with
    | some Outcome.Pass => leadingContribution ctx hEvent ds data
    | some (Outcome.ContinueOutcome data2 decs) =>
        Option.map (fun r => (r.1, decs ++ r.2)) (leadingContribution ctx hEvent ds data2)
    | _ => none

/-- Specification helper (not a source translation): is `d` the decision
that signals this very execution (the context's own workflow id and run
id) with the reserved continue signal? -/
def isContinueSelfSignal (ctx : FSMContext) (d : Decision) : Bool :=
  decide (d.decisionType = DecisionTypeSignalExternalWorkflowExecution ∧
    d.signalExternalWorkflowExecutionDecisionAttributes =
      some (SignalExternalWorkflowExecutionDecisionAttributes.mk
        ContinueSignal ctx.WorkflowID ctx.RunID))

/-- Specification helper (not a source translation): `PassPadding ds es`
holds when `es` is `ds` with rules that always return Pass inserted at an
arbitrary set of positions. -/
inductive PassPadding {D : Type} : List (Decider D) → List (Decider D) → Prop where
  | nil : PassPadding [] []
  | keep (d : Decider D) {ds es : List (Decider D)} :
      PassPadding ds es → PassPadding (d :: ds) (d :: es)
  | pad (r : Decider D) {ds es : List (Decider D)} :
      (∀ ctx hEvent x, r ctx hEvent x = some Outcome.Pass) →
      PassPadding ds es → PassPadding ds (r :: es)

/-- A concrete execution context used by witnesses and counterexamples:
no outstanding activities. -/
def ctxA : FSMContext := FSMContext.mk "wf-1" "run-1" "working" []

/-- A concrete, unremarkable history event used by witnesses. -/
def evStarted : HistoryEvent := HistoryEvent.mk "WorkflowExecutionStarted" 5 none none

/-- A concrete timer-fired event for the reserved continue timer whose
identifier (11) exceeds the history threshold (10) used in the
history-threshold counterexample. -/
def evContinueTimerBig : HistoryEvent :=
  HistoryEvent.mk EventTypeTimerFired 11 (some (TimerFiredEventAttributes.mk ContinueTimer)) none

/-- A concrete sub-decider that completes the workflow, carrying its input
data and no decisions of its own. -/
def completeRule : Decider String := fun _ _ data => some (Outcome.CompleteOutcome data [])

/-- A concrete sub-decider that always passes. -/
def alwaysPassRule : Decider String := fun _ _ _ => some Outcome.Pass

/-- A concrete sub-decider that returns the nil interface value, as the
adapter around a nil-returning typed callback does. -/
def nilRule : Decider String := fun _ _ _ => some Outcome.NilOutcome

/-- A concrete typed callback that returns a nil Outcome. -/
def nilCallback : FSMContext → HistoryEvent → String → Outcome String :=
  fun _ _ _ => Outcome.NilOutcome

/-- A concrete sub-decider that transitions to state `"done"` with one
continue-as-new decision, used by short-circuit witnesses. -/
def transitionRule : Decider String :=
  fun ctx _ data => some (ctx.Goto "done" data [ctx.ContinueWorkflowDecision "done"])

/-- A concrete typed decider callback of the right shape, used by the
typed-adapter witnesses. -/
def typedCallback : FSMContext → HistoryEvent → String → Outcome String :=
  fun _ _ _ => Outcome.Pass

/-- A concrete external-workflow-execution-signaled history event. -/
def evSignalSent : HistoryEvent :=
  HistoryEvent.mk EventTypeExternalWorkflowExecutionSignaled 7 none none

/-- A concrete typed decision-producing callback. -/
def typedDecisionCallback : FSMContext → HistoryEvent → String → Decision :=
  fun _ _ _ => Decision.mk DecisionTypeStartTimer none none none

/-- A concrete typed multi-decision-producing callback. -/
def typedMultiCallback : FSMContext → HistoryEvent → String → List Decision :=
  fun _ _ _ => []

/-- A concrete typed state-mutating callback. -/
def typedStateCallback : FSMContext → HistoryEvent → String → Unit :=
  fun _ _ _ => ()

/-- A concrete typed predicate callback. -/
def typedPredicateCallback : String → Bool :=
  fun _ => true

/-- Helper: running a composition on `pre ++ rest` first consumes `pre`;
if every rule of `pre` passes or continues, the loop reaches `rest` with
the threaded data and the accumulated decisions of `pre` appended. -/
theorem decideAux_append_leading {D : Type} (ctx : FSMContext) (hEvent : HistoryEvent)
    (pre rest : List (Decider D)) :
    ∀ (data data' : D) (acc decs0 : List Decision),
      leadingContribution ctx hEvent pre data = some (data', acc) →
      ComposedDecider.DecideAux ctx hEvent (pre ++ rest) data decs0
        = ComposedDecider.DecideAux ctx hEvent rest data' (decs0 ++ acc) := by
  induction pre with
  | nil =>
    intro data data' acc decs0 hp
    simp only [leadingContribution, Option.some.injEq, Prod.mk.injEq] at hp
    obtain ⟨rfl, rfl⟩ := hp
    simp
  | cons d ds ih =>
    intro data data' acc decs0 hp
    rw [List.cons_append]
    cases hd : d ctx hEvent data with
    | none =>
      simp only [leadingContribution, hd] at hp
      exact Option.noConfusion hp
    | some o =>
      cases o with
      | Pass =>
        simp only [leadingContribution, hd] at hp
        simp only [ComposedDecider.DecideAux, hd]
        exact ih data data' acc decs0 hp
      | ContinueOutcome data2 decs =>
        simp only [leadingContribution, hd, Option.map_eq_some'] at hp
        obtain ⟨⟨dd, ll⟩, hrec, heq⟩ := hp
        simp only [Prod.mk.injEq] at heq
        obtain ⟨h1, h2⟩ := heq
        subst h1
        subst h2
        simp only [ComposedDecider.DecideAux, hd]
        rw [ih data2 dd ll (decs0 ++ decs) hrec]
        rw [List.append_assoc]
      | TransitionOutcome data2 st decs =>
        simp only [leadingContribution, hd] at hp
        exact Option.noConfusion hp
      | CompleteOutcome data2 decs =>
        simp only [leadingContribution, hd] at hp
        exact Option.noConfusion hp
      | NilOutcome =>
        simp only [leadingContribution, hd] at hp
        exact Option.noConfusion hp

/-- Helper: when the rule after a passing/continuing run returns a
pass-ending (Transition or Complete) outcome, the whole composition
returns immediately the `TransitionOutcome` the source builds in the
`default:` branch, whatever rules follow. -/
theorem decideAux_terminal {D : Type} (ctx : FSMContext) (hEvent : HistoryEvent)
    (pre post : List (Decider D)) (di : Decider D) (data data' : D)
    (acc : List Decision) (oi : Outcome D)
    (hp : leadingContribution ctx hEvent pre data = some (data', acc))
    (hi : di ctx hEvent data' = some oi)
    (ht : oi.terminal = true) :
    NewComposedDecider (pre ++ di :: post) ctx hEvent data
      = some (Outcome.TransitionOutcome (oi.dataOf data') oi.stateOf
          (acc ++ oi.decisionsOf)) := by
  unfold NewComposedDecider
  rw [decideAux_append_leading ctx hEvent pre (di :: post) data data' acc
    (ctx.EmptyDecisions) hp]
  cases oi with
  | Pass => simp [Outcome.terminal] at ht
  | ContinueOutcome data2 decs => simp [Outcome.terminal] at ht
  | NilOutcome => simp [Outcome.terminal] at ht
  | TransitionOutcome data2 st decs =>
    simp [ComposedDecider.DecideAux, hi, FSMContext.EmptyDecisions,
      Outcome.stateOf, Outcome.dataOf, Outcome.decisionsOf]
  | CompleteOutcome data2 decs =>
    simp [ComposedDecider.DecideAux, hi, FSMContext.EmptyDecisions,
      Outcome.stateOf, Outcome.dataOf, Outcome.decisionsOf]

/-- Helper: a composition whose rules all return Pass at the input data
falls through to a Continue outcome carrying the untouched accumulator and
data. -/
theorem decideAux_all_pass {D : Type} (ctx : FSMContext) (hEvent : HistoryEvent) (data : D) :
    ∀ (ds : List (Decider D)), (∀ d ∈ ds, d ctx hEvent data = some Outcome.Pass) →
      ∀ decs0, ComposedDecider.DecideAux ctx hEvent ds data decs0
        = some (Outcome.ContinueOutcome data decs0) := by
  intro ds
  induction ds with
  | nil => intro _ decs0; rfl
  | cons d ds ih =>
    intro hall decs0
    have hd := hall d (List.mem_cons_self d ds)
    simp only [ComposedDecider.DecideAux, hd]
    exact ih (fun x hx => hall x (List.mem_cons_of_mem d hx)) decs0

/-- Claim C1, counterexample: a composed decider with a single sub-decider
that returns a Complete outcome does not return a Complete outcome — the
source's `default:` branch (deciders.go lines 47-53) wraps it into a
`TransitionOutcome`. -/
theorem composed_decider_complete_counterexample :
    NewComposedDecider [completeRule] ctxA evStarted "d0"
      = some (Outcome.TransitionOutcome "d0" "" [])
    ∧ outcomeIsComplete (NewComposedDecider [completeRule] ctxA evStarted "d0") = false :=
  ⟨rfl, rfl⟩

/-- Claim C1 (amended): if the rules before `di` all pass or continue
(accumulating `acc` and threading the data to `data'`) and `di` returns a
Transition or Complete outcome, `Decide` returns immediately — whatever
rules follow — a `TransitionOutcome` carrying the sub-outcome's reported
state (the rule's target state for Transition) and the full accumulated
decision sequence; for a Complete sub-outcome the result is this
Transition-shaped wrapping, not a Complete outcome. -/
theorem composed_decider_terminal_returns_immediately {D : Type} (ctx : FSMContext)
    (hEvent : HistoryEvent) (pre post : List (Decider D)) (di : Decider D)
    (data data' : D) (acc : List Decision) (oi : Outcome D)
    (hp : leadingContribution ctx hEvent pre data = some (data', acc))
    (hi : di ctx hEvent data' = some oi)
    (ht : oi.terminal = true) :
    NewComposedDecider (pre ++ di :: post) ctx hEvent data
      = some (Outcome.TransitionOutcome (oi.dataOf data') oi.stateOf
          (acc ++ oi.decisionsOf)) :=
  decideAux_terminal ctx hEvent pre post di data data' acc oi hp hi ht

/-- Witness for the amended claim C1 at a concrete input: one completing
sub-decider, no rules before or after. -/
theorem composed_decider_terminal_returns_immediately_witness :
    NewComposedDecider ([] ++ completeRule :: []) ctxA evStarted "d0"
      = some (Outcome.TransitionOutcome "d0" "" []) := by
  have h := composed_decider_terminal_returns_immediately ctxA evStarted [] [] completeRule
    "d0" "d0" [] (Outcome.CompleteOutcome "d0" []) rfl rfl rfl
  simpa [Outcome.dataOf, Outcome.stateOf, Outcome.decisionsOf] using h

/-- Claim C2: when rule `di` is the first to return a Transition or
Complete outcome — the rules before it pass or continue, contributing
`acc` — the result's decision sequence is the concatenation, in order, of
the decisions contributed by the earlier rules and by `di`, and no rule
after `di` is invoked: the result is the same for any `post` and
`post'`. -/
theorem composed_decider_short_circuit {D : Type} (ctx : FSMContext) (hEvent : HistoryEvent)
    (pre post post' : List (Decider D)) (di : Decider D) (data data' : D)
    (acc : List Decision) (oi : Outcome D)
    (hp : leadingContribution ctx hEvent pre data = some (data', acc))
    (hi : di ctx hEvent data' = some oi)
    (ht : oi.terminal = true) :
    NewComposedDecider (pre ++ di :: post) ctx hEvent data
        = NewComposedDecider (pre ++ di :: post') ctx hEvent data
      ∧ outcomeDecisions (NewComposedDecider (pre ++ di :: post) ctx hEvent data)
        = acc ++ oi.decisionsOf := by
  have h1 := decideAux_terminal ctx hEvent pre post di data data' acc oi hp hi ht
  have h2 := decideAux_terminal ctx hEvent pre post' di data data' acc oi hp hi ht
  constructor
  · rw [h1, h2]
  · rw [h1]
    simp [outcomeDecisions, Outcome.decisionsOf]

/-- Witness for claim C2 at a concrete input: a passing rule, then a
transitioning rule; the trailing rules differ (`completeRule` versus
`nilRule` — the latter would panic if it were invoked) yet the result is
identical, and the decisions are those of the transitioning rule. -/
theorem composed_decider_short_circuit_witness :
    (NewComposedDecider ([alwaysPassRule] ++ transitionRule :: [completeRule]) ctxA
          evStarted "d0"
        = NewComposedDecider ([alwaysPassRule] ++ transitionRule :: [nilRule]) ctxA
          evStarted "d0")
    ∧ outcomeDecisions (NewComposedDecider
          ([alwaysPassRule] ++ transitionRule :: [completeRule]) ctxA evStarted "d0")
        = [] ++ (ctxA.Goto "done" "d0"
            [ctxA.ContinueWorkflowDecision "done"] : Outcome String).decisionsOf :=
  composed_decider_short_circuit ctxA evStarted [alwaysPassRule] [completeRule] [nilRule]
    transitionRule "d0" "d0" [] (ctxA.Goto "done" "d0" [ctxA.ContinueWorkflowDecision "done"])
    rfl rfl rfl

/-- Claim C5: a composed decider in which every sub-decider returns Pass
on the given context, event and data returns a Continue outcome with an
empty decision sequence and the original input data unchanged. -/
theorem composed_decider_fallthrough {D : Type} (ds : List (Decider D)) (ctx : FSMContext)
    (hEvent : HistoryEvent) (data : D)
    (hall : ∀ d ∈ ds, d ctx hEvent data = some Outcome.Pass) :
    NewComposedDecider ds ctx hEvent data = some (Outcome.ContinueOutcome data []) := by
  unfold NewComposedDecider
  exact decideAux_all_pass ctx hEvent data ds hall ctx.EmptyDecisions

/-- Witness for claim C5 at a concrete input. -/
theorem composed_decider_fallthrough_witness :
    NewComposedDecider [alwaysPassRule] ctxA evStarted "d0"
      = some (Outcome.ContinueOutcome "d0" []) :=
  composed_decider_fallthrough [alwaysPassRule] ctxA evStarted "d0"
    (by intro d hd; rw [List.mem_singleton] at hd; subst hd; rfl)

/-- Helper: inserting always-Pass rules anywhere leaves the composition
loop's result unchanged, for any threaded data and accumulator. -/
theorem passPadding_decideAux {D : Type} {ds es : List (Decider D)} (hpad : PassPadding ds es) :
    ∀ (ctx : FSMContext) (hEvent : HistoryEvent) (data : D) (decs0 : List Decision),
      ComposedDecider.DecideAux ctx hEvent es data decs0
        = ComposedDecider.DecideAux ctx hEvent ds data decs0 := by
  induction hpad with
  | nil => intro ctx hEvent data decs0; rfl
  | keep d hpad ih =>
    intro ctx hEvent data decs0
    cases hd : d ctx hEvent data with
    | none => simp only [ComposedDecider.DecideAux, hd]
    | some o =>
      cases o with
      | Pass =>
        simp only [ComposedDecider.DecideAux, hd]
        exact ih ctx hEvent data decs0
      | ContinueOutcome d2 decs =>
        simp only [ComposedDecider.DecideAux, hd]
        exact ih ctx hEvent d2 (decs0 ++ decs)
      | TransitionOutcome d2 st decs => simp only [ComposedDecider.DecideAux, hd]
      | CompleteOutcome d2 decs => simp only [ComposedDecider.DecideAux, hd]
      | NilOutcome => simp only [ComposedDecider.DecideAux, hd]
  | pad r hr hpad ih =>
    intro ctx hEvent data decs0
    simp only [ComposedDecider.DecideAux, hr ctx hEvent data]
    exact ih ctx hEvent data decs0

/-- Claim C6: a composed decider with always-Pass rules inserted at (or
standing in for removed rules at) any set of positions produces exactly
the same outcome — same decisions, data and state — as the composition
without those rules, on every context, event and data. -/
theorem composed_decider_pass_transparency {D : Type} (ds es : List (Decider D))
    (hpad : PassPadding ds es) (ctx : FSMContext) (hEvent : HistoryEvent) (data : D) :
    NewComposedDecider es ctx hEvent data = NewComposedDecider ds ctx hEvent data := by
  unfold NewComposedDecider
  exact passPadding_decideAux hpad ctx hEvent data ctx.EmptyDecisions

/-- Witness for claim C6 at a concrete input: padding `[transitionRule]`
with an always-Pass rule in front changes nothing. -/
theorem composed_decider_pass_transparency_witness :
    NewComposedDecider [alwaysPassRule, transitionRule] ctxA evStarted "d0"
      = NewComposedDecider [transitionRule] ctxA evStarted "d0" :=
  composed_decider_pass_transparency [transitionRule] [alwaysPassRule, transitionRule]
    (PassPadding.pad alwaysPassRule (fun _ _ _ => rfl)
      (PassPadding.keep transitionRule PassPadding.nil)) ctxA evStarted "d0"

/-- Claim C3: on a timer-fired event for the reserved continue timer,
`ManagedContinuations` emits exactly one decision — continue-as-new
carrying the current state name when the outstanding-activities registry
is empty, otherwise one start-timer decision for the reserved continue
timer with the configured retry delay — and in both cases the outcome
keeps the current state. -/
theorem managed_continuations_continue_timer {D : Type}
    (historySize timerRetrySeconds : Int) (ctx : FSMContext) (hEvent : HistoryEvent)
    (data : D)
    (ht : hEvent.eventType = EventTypeTimerFired)
    (ha : Option.map TimerFiredEventAttributes.timerID hEvent.timerFiredEventAttributes
      = some ContinueTimer) :
    (ctx.ActivitiesInfo = [] →
      ManagedContinuations historySize timerRetrySeconds ctx hEvent data
        = some (Outcome.TransitionOutcome data ctx.State
            [ctx.ContinueWorkflowDecision ctx.State]))
    ∧ (ctx.ActivitiesInfo ≠ [] →
      ManagedContinuations historySize timerRetrySeconds ctx hEvent data
        = some (Outcome.TransitionOutcome data ctx.State
            [continuationRetryTimerDecision timerRetrySeconds])) := by
  obtain ⟨attrs, hattr, htid⟩ := Option.map_eq_some'.mp ha
  constructor
  · intro hemp
    have hlen : ctx.ActivitiesInfo.length = 0 := by rw [hemp]; rfl
    simp [ManagedContinuations, NewComposedDecider, ComposedDecider.DecideAux,
      handleContinuationTimer, ht, hattr, htid, hlen, FSMContext.Stay,
      FSMContext.EmptyDecisions, Outcome.stateOf]
  · intro hne
    have hlen : ¬ ctx.ActivitiesInfo.length = 0 := by
      simpa [List.length_eq_zero] using hne
    simp [ManagedContinuations, NewComposedDecider, ComposedDecider.DecideAux,
      handleContinuationTimer, ht, hattr, htid, hlen, FSMContext.Stay,
      FSMContext.EmptyDecisions, Outcome.stateOf]

/-- Witness for claim C3 at a concrete input: the continue timer fires
with no outstanding activities; the single decision is continue-as-new
for the current state. -/
theorem managed_continuations_continue_timer_witness :
    ManagedContinuations (D := String) 10 60 ctxA evContinueTimerBig "d0"
      = some (Outcome.TransitionOutcome "d0" ctxA.State
          [ctxA.ContinueWorkflowDecision ctxA.State]) :=
  (managed_continuations_continue_timer 10 60 ctxA evContinueTimerBig "d0" rfl rfl).1 rfl

/-- Claim C4, counterexample: for the continue-timer event with identifier
11 and threshold 10 the claimed equivalence "a self-signal decision is
emitted iff the event id exceeds the threshold" fails — the
continuation-timer rule ends the pass first, so no self-signal is emitted
although the identifier exceeds the threshold. -/
theorem managed_continuations_history_threshold_counterexample :
    ¬ (((outcomeDecisions (ManagedContinuations (D := String) 10 60 ctxA
            evContinueTimerBig "d0")).any (isContinueSelfSignal ctxA) = true)
        ↔ (10 : Int) < evContinueTimerBig.eventID) := by
  decide

/-- Claim C4 (amended): for every history event on which the
continuation-timer and continuation-signal rules pass — a timer-fired
event carries an attribute block naming a different timer, and a
workflow-execution-signaled event carries an attribute block naming a
different signal (this also rules out the nil-attribute events on which
those rules panic) — `ManagedContinuations` emits a decision signalling
the same execution (its own workflow id and run id) with the reserved
continue signal iff the event identifier exceeds the threshold, and for an
identifier at or below the threshold the history-size rule contributes no
decision at all.  (For continue-timer and continue-signal events the
earlier rules end the pass, so no self-signal is emitted even above the
threshold.) -/
theorem managed_continuations_history_threshold {D : Type}
    (historySize timerRetrySeconds : Int) (ctx : FSMContext) (hEvent : HistoryEvent)
    (data : D)
    (h1 : hEvent.eventType = EventTypeTimerFired →
        ∃ a, hEvent.timerFiredEventAttributes = some a ∧ a.timerID ≠ ContinueTimer)
    (h2 : hEvent.eventType = EventTypeWorkflowExecutionSignaled →
        ∃ a, hEvent.workflowExecutionSignaledEventAttributes = some a
          ∧ a.signalName ≠ ContinueSignal) :
    (((outcomeDecisions (ManagedContinuations historySize timerRetrySeconds ctx hEvent
          data)).any (isContinueSelfSignal ctx) = true)
        ↔ historySize < hEvent.eventID)
    ∧ (hEvent.eventID ≤ historySize →
        ManagedContinuations historySize timerRetrySeconds ctx hEvent data
          = some (Outcome.ContinueOutcome data [])) := by
  have r1 : handleContinuationTimer (D := D) timerRetrySeconds ctx hEvent data
      = some Outcome.Pass := by
    unfold handleContinuationTimer
    by_cases hty : hEvent.eventType = EventTypeTimerFired
    · obtain ⟨a, ha1, ha2⟩ := h1 hty
      simp [hty, ha1, ha2]
    · rw [if_neg hty]
  have r2 : handleContinuationSignal (D := D) timerRetrySeconds ctx hEvent data
      = some Outcome.Pass := by
    unfold handleContinuationSignal
    by_cases hty : hEvent.eventType = EventTypeWorkflowExecutionSignaled
    · obtain ⟨a, ha1, ha2⟩ := h2 hty
      simp [hty, ha1, ha2]
    · rw [if_neg hty]
  by_cases hbig : historySize < hEvent.eventID
  · have r3 : signalContinuationWhenHistoryLarge (D := D) historySize ctx hEvent data
        = some (Outcome.TransitionOutcome data ctx.State [continueSelfSignalDecision ctx]) := by
      unfold signalContinuationWhenHistoryLarge
      rw [if_pos hbig]
      rfl
    constructor
    · simp only [ManagedContinuations, NewComposedDecider, ComposedDecider.DecideAux,
        r1, r2, r3, FSMContext.EmptyDecisions, outcomeDecisions, Outcome.decisionsOf,
        Outcome.stateOf, List.nil_append, List.any_cons, List.any_nil, Bool.or_false]
      simp only [isContinueSelfSignal, continueSelfSignalDecision, decide_eq_true_eq]
      simp [hbig]
    · intro hle
      exact absurd hbig (not_lt.mpr hle)
  · have r3 : signalContinuationWhenHistoryLarge (D := D) historySize ctx hEvent data
        = some Outcome.Pass := by
      unfold signalContinuationWhenHistoryLarge
      rw [if_neg hbig]
    have hres : ManagedContinuations historySize timerRetrySeconds ctx hEvent data
        = some (Outcome.ContinueOutcome data []) := by
      simp only [ManagedContinuations, NewComposedDecider, ComposedDecider.DecideAux,
        r1, r2, r3, FSMContext.EmptyDecisions]
    constructor
    · rw [hres]
      simp [outcomeDecisions, Outcome.decisionsOf, hbig]
    · intro _
      exact hres

/-- Witness for the amended claim C4 at a concrete input: an ordinary
event with identifier 5 and threshold 3 makes the composed decider emit
the continue self-signal. -/
theorem managed_continuations_history_threshold_witness :
    (outcomeDecisions (ManagedContinuations (D := String) 3 60 ctxA evStarted
        "d0")).any (isContinueSelfSignal ctxA) = true :=
  (managed_continuations_history_threshold 3 60 ctxA evStarted "d0"
    (fun h => absurd h (by decide)) (fun h => absurd h (by decide))).1.mpr (by decide)

/-- Claim C9: the deciders built by `OnSignalSent` and `OnSignalFailed`
never consult their `signalName` parameter — the result is identical for
any two signal names — and on an event of the matching kind they delegate
to the nested composed decider whatever signal the event refers to. -/
theorem on_signal_sent_ignores_signal_name {D : Type} (s1 s2 : String)
    (ds : List (Decider D)) (ctx : FSMContext) (hEvent : HistoryEvent) (data : D) :
    (OnSignalSent s1 ds ctx hEvent data = OnSignalSent s2 ds ctx hEvent data)
    ∧ (OnSignalFailed s1 ds ctx hEvent data = OnSignalFailed s2 ds ctx hEvent data)
    ∧ (hEvent.eventType = EventTypeExternalWorkflowExecutionSignaled →
        OnSignalSent s1 ds ctx hEvent data = NewComposedDecider ds ctx hEvent data)
    ∧ (hEvent.eventType = EventTypeSignalExternalWorkflowExecutionFailed →
        OnSignalFailed s1 ds ctx hEvent data = NewComposedDecider ds ctx hEvent data) := by
  refine ⟨rfl, rfl, ?_, ?_⟩
  · intro he
    simp [OnSignalSent, he]
  · intro he
    simp [OnSignalFailed, he]

/-- Witness for claim C9 at a concrete input: on an
external-workflow-execution-signaled event, `OnSignalSent` with some
signal name delegates to the nested composition. -/
theorem on_signal_sent_ignores_signal_name_witness :
    OnSignalSent "sig-a" ([] : List (Decider String)) ctxA evSignalSent "d0"
      = NewComposedDecider [] ctxA evSignalSent "d0" :=
  (on_signal_sent_ignores_signal_name "sig-a" "sig-b" [] ctxA evSignalSent "d0").2.2.1 rfl

/-- Helper: the length check plus element-by-element comparison performed
by `typeCheck`'s loops succeeds exactly when the two lists are equal. -/
theorem length_zip_all_eq_iff :
    ∀ (xs ys : List String),
      (((xs.length == ys.length) && ((xs.zip ys).all fun p => p.1 == p.2)) = true)
        ↔ xs = ys := by
  intro xs
  induction xs with
  | nil =>
    intro ys
    cases ys with
    | nil => simp
    | cons y ys => simp
  | cons x xs ih =>
    intro ys
    cases ys with
    | nil => simp
    | cons y ys =>
      rw [List.zip_cons_cons, List.all_cons]
      simp only [List.length_cons, Bool.and_eq_true, beq_iff_eq, Nat.add_right_cancel_iff,
        List.cons.injEq]
      constructor
      · rintro ⟨hlen, hx, hall⟩
        have hxs := (ih ys).mp (by simp [hlen, hall, Bool.and_eq_true, beq_iff_eq])
        exact ⟨hx, hxs⟩
      · rintro ⟨hx, hxs⟩
        have h := (ih ys).mpr hxs
        simp only [Bool.and_eq_true, beq_iff_eq] at h
        exact ⟨h.1, hx, h.2⟩

/-- Helper: `typeCheck` succeeds exactly when the inspected value is a
function whose argument and return type lists are exactly the expected
ones. -/
theorem typeCheck_eq_true_iff (t : GoFuncType) (ins outs : List String) :
    typeCheck t ins outs = true ↔ t = GoFuncType.mk "func" ins outs := by
  cases t with
  | mk k ti tr =>
    unfold typeCheck
    rw [Bool.and_eq_true, Bool.and_eq_true, length_zip_all_eq_iff ins ti,
      length_zip_all_eq_iff outs tr, beq_iff_eq]
    constructor
    · rintro ⟨⟨hk, hin⟩, hout⟩
      rw [GoFuncType.mk.injEq]
      exact ⟨hk, hin.symm, hout.symm⟩
    · rintro h
      rw [GoFuncType.mk.injEq] at h
      obtain ⟨hk, hin, hout⟩ := h
      exact ⟨⟨hk, hin.symm⟩, hout.symm⟩

/-- Helper: an optional value built by a guarded construction is present
exactly when the guard held. -/
theorem isSome_guarded {α : Type} (c : Bool) (a : α) :
    (if c then some a else none).isSome = true ↔ c = true := by
  cases c <;> simp

/-- Claim C7: each `TypedFuncs` constructor succeeds exactly when the
callback's reflected signature matches the expected shape — a func of the
documented argument types (including the payload type) and return types;
any other kind, arity or type list fails the construction-time check
(there is no per-call check: the adapters apply the callback directly). -/
theorem typed_adapter_construction_iff {D : Type} (t : TypedFuncs) (sig : GoFuncType)
    (fdec : FSMContext → HistoryEvent → D → Outcome D)
    (fdf : FSMContext → HistoryEvent → D → Decision)
    (fmdf : FSMContext → HistoryEvent → D → List Decision)
    (fsf : FSMContext → HistoryEvent → D → Unit)
    (fpf : D → Bool) :
    ((t.buildDecider sig fdec).isSome = true
        ↔ sig = GoFuncType.mk "func"
            ["*fsm.FSMContext", "swf.HistoryEvent", t.typeArg] ["fsm.Outcome"])
    ∧ ((t.buildDecisionFunc sig fdf).isSome = true
        ↔ sig = GoFuncType.mk "func"
            ["*fsm.FSMContext", "swf.HistoryEvent", t.typeArg] ["swf.Decision"])
    ∧ ((t.buildMultiDecisionFunc sig fmdf).isSome = true
        ↔ sig = GoFuncType.mk "func"
            ["*fsm.FSMContext", "swf.HistoryEvent", t.typeArg] ["[]swf.Decision"])
    ∧ ((t.buildStateFunc sig fsf).isSome = true
        ↔ sig = GoFuncType.mk "func"
            ["*fsm.FSMContext", "swf.HistoryEvent", t.typeArg] [])
    ∧ ((t.buildPredicateFunc sig fpf).isSome = true
        ↔ sig = GoFuncType.mk "func" [t.typeArg] ["bool"]) := by
  refine ⟨?_, ?_, ?_, ?_, ?_⟩
  · unfold TypedFuncs.buildDecider
    rw [isSome_guarded, typeCheck_eq_true_iff]
  · unfold TypedFuncs.buildDecisionFunc
    rw [isSome_guarded, typeCheck_eq_true_iff]
  · unfold TypedFuncs.buildMultiDecisionFunc
    rw [isSome_guarded, typeCheck_eq_true_iff]
  · unfold TypedFuncs.buildStateFunc
    rw [isSome_guarded, typeCheck_eq_true_iff]
  · unfold TypedFuncs.buildPredicateFunc
    rw [isSome_guarded, typeCheck_eq_true_iff]

/-- Witness for claim C7 at a concrete input: a decider callback whose
signature matches the expected shape constructs successfully. -/
theorem typed_adapter_construction_iff_witness :
    ((TypedFuncs.mk "*main.StateData").buildDecider
        (GoFuncType.mk "func" ["*fsm.FSMContext", "swf.HistoryEvent", "*main.StateData"]
          ["fsm.Outcome"]) typedCallback).isSome = true :=
  (typed_adapter_construction_iff (TypedFuncs.mk "*main.StateData")
      (GoFuncType.mk "func" ["*fsm.FSMContext", "swf.HistoryEvent", "*main.StateData"]
        ["fsm.Outcome"]) typedCallback typedDecisionCallback typedMultiCallback
      typedStateCallback typedPredicateCallback).1.mpr rfl

/-- Claim C8: on the inline (calling-goroutine) dispatch policy,
`DispatchTask` applies the handler to the task exactly once,
synchronously: the returned state is the handler's result, the handler
completion appears exactly once in the trace, and it appears strictly
before the call returns. -/
theorem inline_dispatcher_synchronous {Task St : Type} [DecidableEq Task]
    (task : Task) (handler : Task → St → St) (s : St) :
    ((CallingGoroutineDispatcher.DispatchTask task handler s).1 = handler task s)
    ∧ (((CallingGoroutineDispatcher.DispatchTask task handler s).2.takeWhile
          (fun e => e ≠ DispatchEvent.returned)).count
            (DispatchEvent.handlerCompleted task) = 1)
    ∧ ((CallingGoroutineDispatcher.DispatchTask task handler s).2.count
          (DispatchEvent.handlerCompleted task) = 1) := by
  refine ⟨rfl, ?_, ?_⟩
  · simp [CallingGoroutineDispatcher.DispatchTask, List.takeWhile, List.count_cons]
  · simp [CallingGoroutineDispatcher.DispatchTask, List.count_cons]

/-- Helper: a composition is total when every sub-decider returns some
non-nil outcome at every data value. -/
theorem decideAux_total {D : Type} (ctx : FSMContext) (hEvent : HistoryEvent) :
    ∀ (ds : List (Decider D)),
      (∀ d ∈ ds, ∀ x, ∃ o, d ctx hEvent x = some o ∧ o ≠ Outcome.NilOutcome) →
      ∀ (data : D) (decs0 : List Decision),
        ∃ o, ComposedDecider.DecideAux ctx hEvent ds data decs0 = some o := by
  intro ds
  induction ds with
  | nil =>
    intro _ data decs0
    exact ⟨Outcome.ContinueOutcome data decs0, rfl⟩
  | cons d ds ih =>
    intro hall data decs0
    obtain ⟨o, ho, hne⟩ := hall d (List.mem_cons_self d ds) data
    have hrest := fun x hx => hall x (List.mem_cons_of_mem d hx)
    cases o with
    | Pass =>
      simp only [ComposedDecider.DecideAux, ho]
      exact ih hrest data decs0
    | ContinueOutcome d2 decs =>
      simp only [ComposedDecider.DecideAux, ho]
      exact ih hrest d2 (decs0 ++ decs)
    | TransitionOutcome d2 st decs =>
      simp only [ComposedDecider.DecideAux, ho]
      exact ⟨_, rfl⟩
    | CompleteOutcome d2 decs =>
      simp only [ComposedDecider.DecideAux, ho]
      exact ⟨_, rfl⟩
    | NilOutcome => exact absurd rfl hne

/-- Claim C10: the typed adapter maps a nil callback result to the nil
outcome (never Pass); a sub-decider returning nil after a passing or
continuing run makes `Decide` panic; and `Decide` is total whenever every
sub-decider always returns some non-nil outcome. -/
theorem composed_decide_total_iff_no_nil {D : Type} (ctx : FSMContext)
    (hEvent : HistoryEvent) :
    (∀ (v : FSMContext → HistoryEvent → D → Outcome D) (data : D),
        v ctx hEvent data = Outcome.NilOutcome →
        marshalledFuncDecider v ctx hEvent data = some Outcome.NilOutcome
          ∧ marshalledFuncDecider v ctx hEvent data ≠ some Outcome.Pass)
    ∧ (∀ (pre post : List (Decider D)) (di : Decider D) (data data' : D)
          (acc : List Decision),
        leadingContribution ctx hEvent pre data = some (data', acc) →
        di ctx hEvent data' = some Outcome.NilOutcome →
        NewComposedDecider (pre ++ di :: post) ctx hEvent data = none)
    ∧ (∀ (ds : List (Decider D)) (data : D),
        (∀ d ∈ ds, ∀ x, ∃ o, d ctx hEvent x = some o ∧ o ≠ Outcome.NilOutcome) →
        ∃ o, NewComposedDecider ds ctx hEvent data = some o) := by
  refine ⟨?_, ?_, ?_⟩
  · intro v data hnil
    constructor
    · simp [marshalledFuncDecider, hnil]
    · simp [marshalledFuncDecider, hnil]
  · intro pre post di data data' acc hp hi
    unfold NewComposedDecider
    rw [decideAux_append_leading ctx hEvent pre (di :: post) data data' acc
      ctx.EmptyDecisions hp]
    simp [ComposedDecider.DecideAux, hi]
  · intro ds data hall
    exact decideAux_total ctx hEvent ds hall data _

/-- Witness for claim C10 at a concrete input: the adapter around a
nil-returning callback returns nil, and composing the resulting rule makes
`Decide` panic. -/
theorem composed_decide_total_iff_no_nil_witness :
    NewComposedDecider [nilRule] ctxA evStarted "d0" = none
    ∧ marshalledFuncDecider nilCallback ctxA evStarted "d0" = some Outcome.NilOutcome :=
  ⟨(composed_decide_total_iff_no_nil ctxA evStarted).2.1 [] [] nilRule "d0" "d0" [] rfl rfl,
   ((composed_decide_total_iff_no_nil ctxA evStarted).1 nilCallback "d0" rfl).1⟩
